import Mathlib

/-!
Shallow embedding of the cross-thread event bridging, reference-counted
lifecycle, and deferred-highlight state machine of Process Hacker's
`mainwnd.c` (together with the `HighlightingContext` /
`HighlightedListViewItem` implementation included in the same source file).

The embedding models:
* the producer-side callback handlers (`ProcessAddedHandler`, …) that
  post window messages carrying entity pointers across the thread
  boundary, together with `PhReferenceObject` / `PhDereferenceObject`
  reference counting;
* the consumer-side window-procedure dispatch
  (`WM_PH_PROCESS_ADDED` … `WM_PH_SERVICES_UPDATED`) and the
  `PhMainWndOn*` functions it calls;
* the highlight state machine: `HighlightingContext` with its immediate
  queue (`_queue`), delayed queue (`_postQueue`) and pending buffer
  (`_postQueuePending`), `Tick`, the one-shot timer callback,
  `Enqueue` / `EnqueuePost`, and the `HighlightedListViewItem`
  constructor and `Remove` override.
-/

namespace RefCount

/-- The window messages posted by the provider-side handlers in
`mainwnd.c` (`WM_PH_PROCESS_ADDED` … `WM_PH_SERVICES_UPDATED`). -/
inductive PhMsg where
  | processAdded
  | processModified
  | processRemoved
  | serviceAdded (runId : Nat)
  | serviceModified
  | serviceRemoved
  | servicesUpdated
  deriving DecidableEq

/-- Lifecycle view of a single entity (process item or service item)
as seen from `mainwnd.c`: its reference count, how many
`PhReferenceObject` / `PhDereferenceObject` calls `mainwnd.c` has made
on it, and the FIFO queue of posted, not yet consumed window messages
that reference it. -/
structure ObjLifecycle where
  refCount : Nat
  acquires : Nat
  releases : Nat
  queue : List PhMsg
  deriving DecidableEq

/-- `PhReferenceObject`: atomically increments the reference count. -/
def PhReferenceObject (s : ObjLifecycle) : ObjLifecycle :=
  { s with refCount := s.refCount + 1, acquires := s.acquires + 1 }

/-- `PhDereferenceObject`: atomically decrements the reference count. -/
def PhDereferenceObject (s : ObjLifecycle) : ObjLifecycle :=
  { s with refCount := s.refCount - 1, releases := s.releases + 1 }

/-- `PostMessage(PhMainWndHandle, msg, ...)`: appends the message to the
main window's FIFO message queue. -/
def PostMessage (m : PhMsg) (s : ObjLifecycle) : ObjLifecycle :=
  { s with queue := s.queue ++ [m] }

/-- `ProcessAddedHandler` (mainwnd.c:1354): references the process item,
then posts `WM_PH_PROCESS_ADDED`. -/
def ProcessAddedHandler (s : ObjLifecycle) : ObjLifecycle :=
  PostMessage .processAdded (PhReferenceObject s)

/-- `ProcessModifiedHandler` (mainwnd.c:1367): posts
`WM_PH_PROCESS_MODIFIED` without touching the reference count. -/
def ProcessModifiedHandler (s : ObjLifecycle) : ObjLifecycle :=
  PostMessage .processModified s

/-- `ProcessRemovedHandler` (mainwnd.c:1377): posts
`WM_PH_PROCESS_REMOVED`; the comment in the source notes "We already
have a reference to the process item", so it does not reference it. -/
def ProcessRemovedHandler (s : ObjLifecycle) : ObjLifecycle :=
  PostMessage .processRemoved s

/-- `ServiceAddedHandler` (mainwnd.c:1389): references the service item,
then posts `WM_PH_SERVICE_ADDED` with the provider's run id. -/
def ServiceAddedHandler (runId : Nat) (s : ObjLifecycle) : ObjLifecycle :=
  PostMessage (.serviceAdded runId) (PhReferenceObject s)

/-- `ServiceModifiedHandler` (mainwnd.c:1405): copies the modified-data
payload and posts `WM_PH_SERVICE_MODIFIED`; the service item's
reference count is untouched. -/
def ServiceModifiedHandler (s : ObjLifecycle) : ObjLifecycle :=
  PostMessage .serviceModified s

/-- `ServiceRemovedHandler` (mainwnd.c:1418): posts
`WM_PH_SERVICE_REMOVED` without touching the reference count. -/
def ServiceRemovedHandler (s : ObjLifecycle) : ObjLifecycle :=
  PostMessage .serviceRemoved s

/-- `PhMainWndOnProcessAdded` (mainwnd.c:2003): the created process node
takes over the reference added by `ProcessAddedHandler`
(`__assumeRefs(1)`), so the count is unchanged. -/
def PhMainWndOnProcessAdded (s : ObjLifecycle) : ObjLifecycle :=
  s

/-- `PhMainWndOnProcessModified` (mainwnd.c:2010): updates the node; no
reference-count effect. -/
def PhMainWndOnProcessModified (s : ObjLifecycle) : ObjLifecycle :=
  s

/-- `PhMainWndOnProcessRemoved` (mainwnd.c:2017): removes the node and
dereferences the process item ("Remove the reference for the process
item being displayed"). -/
def PhMainWndOnProcessRemoved (s : ObjLifecycle) : ObjLifecycle :=
  PhDereferenceObject s

/-- `PhMainWndOnServiceAdded` (mainwnd.c:2027), reference-count effect
only: adds a reference for the pointer stored in the list-view item. -/
def PhMainWndOnServiceAddedRc (s : ObjLifecycle) : ObjLifecycle :=
  PhReferenceObject s

/-- `PhMainWndOnServiceRemoved` (mainwnd.c:2059): removes the list-view
item and releases the reference added in `PhMainWndOnServiceAdded`. -/
def PhMainWndOnServiceRemovedRc (s : ObjLifecycle) : ObjLifecycle :=
  PhDereferenceObject s

/-- One step of the main window procedure (mainwnd.c:1097-1140):
consume the oldest posted message and dispatch it.  For
`WM_PH_SERVICE_ADDED` the window procedure calls
`PhMainWndOnServiceAdded` and then dereferences the service item,
releasing the reference taken by `ServiceAddedHandler`. -/
def consumeMessage (s : ObjLifecycle) : ObjLifecycle :=
  match s.queue with
  | [] => s
  | m :: rest =>
    let s' : ObjLifecycle := { s with queue := rest }
    match m with
    | .processAdded => PhMainWndOnProcessAdded s'
    | .processModified => PhMainWndOnProcessModified s'
    | .processRemoved => PhMainWndOnProcessRemoved s'
    | .serviceAdded _ => PhDereferenceObject (PhMainWndOnServiceAddedRc s')
    | .serviceModified => s'
    | .serviceRemoved => PhMainWndOnServiceRemovedRc s'
    | .servicesUpdated => s'

/-- Operations on a single entity's lifecycle: the producer-side
handlers and one consumer dispatch step. -/
inductive RcOp where
  | pAddH
  | pModH
  | pRemH
  | sAddH (runId : Nat)
  | sModH
  | sRemH
  | consume
  deriving DecidableEq

def rcStep : RcOp → ObjLifecycle → ObjLifecycle
  | .pAddH, s => ProcessAddedHandler s
  | .pModH, s => ProcessModifiedHandler s
  | .pRemH, s => ProcessRemovedHandler s
  | .sAddH runId, s => ServiceAddedHandler runId s
  | .sModH, s => ServiceModifiedHandler s
  | .sRemH, s => ServiceRemovedHandler s
  | .consume, s => consumeMessage s

def rcRun : List RcOp → ObjLifecycle → ObjLifecycle
  | [], s => s
  | op :: ops, s => rcRun ops (rcStep op s)

/-- All states visited while running a list of operations, the initial
state included. -/
def rcStates : List RcOp → ObjLifecycle → List ObjLifecycle
  | [], s => [s]
  | op :: ops, s => s :: rcStates ops (rcStep op s)

/-- A state is safe when either no posted message is outstanding or the
reference count is positive (the entity cannot be freed while an event
referencing it is unconsumed). -/
def rcSafe (s : ObjLifecycle) : Bool :=
  s.queue.isEmpty || decide (1 ≤ s.refCount)

/-- `rcAllSafe ops s` is `true` when every state visited while running
`ops` from `s` (the initial and final states included) is safe. -/
def rcAllSafe : List RcOp → ObjLifecycle → Bool
  | [], s => rcSafe s
  | op :: ops, s => rcSafe s && rcAllSafe ops (rcStep op s)

/-- The canonical process-item lifecycle as driven by `mainwnd.c`:
the added event, its consumption, `k` modified events each consumed,
then the removed event and its consumption. -/
def procLifecycle (k : Nat) : List RcOp :=
  [.pAddH, .consume] ++ (List.replicate k [RcOp.pModH, RcOp.consume]).flatten
    ++ [.pRemH, .consume]

/-- The canonical service-item lifecycle as driven by `mainwnd.c`. -/
def svcLifecycle (k : Nat) : List RcOp :=
  [.sAddH 2, .consume] ++ (List.replicate k [RcOp.sModH, RcOp.consume]).flatten
    ++ [.sRemH, .consume]

/-- The entity as created by its provider, holding the creation
reference, before any event is posted. -/
def initialObj : ObjLifecycle :=
  { refCount := 1, acquires := 0, releases := 0, queue := [] }

end RefCount

namespace Highlight

/-- `ListViewItemState` from the highlighting implementation:
`Normal`, `New` (the spec's `RecentlyAdded`) and `Removed`
(the spec's `PendingRemoval`). -/
inductive ListViewItemState where
  | normal
  | new
  | removed
  deriving DecidableEq

/-- Back colors used by the highlighting implementation: the item's
normal (window) color and the two entries of the static `_colors`
dictionary. -/
inductive LVColor where
  | window
  | highlightNew
  | highlightRemoved
  deriving DecidableEq

/-- The deferred actions (closures) that the source ever places in the
highlight queues:
* `decay id` — the closure passed to `EnqueuePost` by the
  `HighlightedListViewItem` constructor: restore the normal color and
  set the state back to `Normal`;
* `removeHighlight id` — the closure passed to `Enqueue` by
  `HighlightedListViewItem.Remove`: paint the removed color and
  `EnqueuePost` the `BaseRemove`;
* `baseRemove id` — `this.BaseRemove`: actually delete the row. -/
inductive HAction where
  | decay (id : Nat)
  | removeHighlight (id : Nat)
  | baseRemove (id : Nat)
  deriving DecidableEq

/-- A `HighlightedListViewItem` row: its identity, its `_normalColor`,
its current `BackColor` and its `_state`. -/
structure LVItem where
  id : Nat
  normalColor : LVColor
  backColor : LVColor
  state : ListViewItemState
  deriving DecidableEq

/-- A `HighlightingContext` together with the list view it drives:
the liveness of the list's window handle (`IsHandleCreated`), the
static `StateHighlighting` toggle and `HighlightingDuration`, the
displayed rows, the three queues (`_queue`, `_postQueue`,
`_postQueuePending`), the number of armed one-shot timers not yet
fired, and a ghost trace of the actions executed so far. -/
structure Ctx where
  listHandleCreated : Bool
  stateHighlighting : Bool
  highlightingDuration : Nat
  items : List LVItem
  queue : List HAction
  postQueue : List HAction
  postQueuePending : List HAction
  timersInFlight : Nat
  executed : List HAction
  deriving DecidableEq

/-- `HighlightingContext.Enqueue`: append to `_queue`. -/
def Enqueue (a : HAction) (s : Ctx) : Ctx :=
  { s with queue := s.queue ++ [a] }

/-- `HighlightingContext.EnqueuePost`: append to `_postQueuePending`
(never directly to `_postQueue`). -/
def EnqueuePost (a : HAction) (s : Ctx) : Ctx :=
  { s with postQueuePending := s.postQueuePending ++ [a] }

/-- Update the row with the given id in place. -/
def updateItem (id : Nat) (f : LVItem → LVItem) : List LVItem → List LVItem
  | [] => []
  | it :: rest =>
    if it.id = id then f it :: rest else it :: updateItem id f rest

/-- Execute one dequeued action (invoke the stored closure).  The
executed action is also recorded in the ghost trace. -/
def applyHAction (a : HAction) (s : Ctx) : Ctx :=
  let s := { s with executed := s.executed ++ [a] }
  match a with
  | .decay id =>
    let f : LVItem → LVItem :=
      fun it => { it with backColor := it.normalColor, state := .normal }
    { s with items := updateItem id f s.items }
  | .removeHighlight id =>
    let f : LVItem → LVItem :=
      fun it => { it with backColor := .highlightRemoved }
    EnqueuePost (.baseRemove id) { s with items := updateItem id f s.items }
  | .baseRemove id =>
    { s with items := s.items.filter (fun it => it.id ≠ id) }

/-- The actions a batch hands to `EnqueuePost` while executing, in
execution order: each `removeHighlight` closure posts the matching
`baseRemove`; the other closures post nothing. -/
def generatedPosts : List HAction → List HAction
  | [] => []
  | .removeHighlight id :: r => .baseRemove id :: generatedPosts r
  | _ :: r => generatedPosts r

/-- Invoke a batch of dequeued actions in FIFO order.  (No action in
the source ever appends to the queue currently being drained — the
stored closures only touch rows and call `EnqueuePost` — so draining
the snapshot of the queue is faithful to the source's
`while (Count > 0) Dequeue().Invoke()` loop.) -/
def drainList : List HAction → Ctx → Ctx
  | [], s => s
  | a :: rest, s => drainList rest (applyHAction a s)

/-- `HighlightingContext.Tick` together with the UI-thread batch it
posts via `BeginInvoke`: if the list's handle is gone, do nothing;
otherwise drain `_queue` in one begin/end-update bracket and arm a
fresh one-shot timer of `HighlightingDuration` milliseconds. -/
def Tick (s : Ctx) : Ctx :=
  if s.listHandleCreated then
    let s' := drainList s.queue { s with queue := [] }
    { s' with timersInFlight := s'.timersInFlight + 1 }
  else
    s

/-- One armed one-shot timer firing, together with the UI-thread batch
its callback posts: the timer is disposed in every case; if the list's
handle is still live, `_postQueue` is drained in one begin/end-update
bracket and then the pending buffer is transferred into `_postQueue`. -/
def timerFire (s : Ctx) : Ctx :=
  let s0 := { s with timersInFlight := s.timersInFlight - 1 }
  if s.listHandleCreated then
    let s' := drainList s.postQueue { s0 with postQueue := [] }
    { s' with postQueue := s'.postQueuePending, postQueuePending := [] }
  else
    s0

/-- The `HighlightedListViewItem` constructor followed by insertion of
the row into the list view: when `StateHighlighting && highlight`, the
row appears with the `New` back color and state and the decay closure
is handed to `EnqueuePost`; otherwise the row appears directly in its
normal color. -/
def newItem (id : Nat) (highlight : Bool) (s : Ctx) : Ctx :=
  if s.stateHighlighting && highlight then
    EnqueuePost (.decay id)
      { s with items := s.items ++
          [{ id := id, normalColor := .window,
             backColor := .highlightNew, state := .new }] }
  else
    { s with items := s.items ++
        [{ id := id, normalColor := .window,
           backColor := .window, state := .normal }] }

/-- `HighlightedListViewItem.Remove`: when `StateHighlighting` is on,
hand the removal highlight closure to `Enqueue`; otherwise delete the
row immediately (`base.Remove()`). -/
def Remove (id : Nat) (s : Ctx) : Ctx :=
  if s.stateHighlighting then
    Enqueue (.removeHighlight id) s
  else
    { s with items := s.items.filter (fun it => it.id ≠ id) }

/-- `ExtendedListView_SetStateHighlighting`: set the toggle. -/
def SetStateHighlighting (b : Bool) (s : Ctx) : Ctx :=
  { s with stateHighlighting := b }

/-- `PhMainWndOnServiceAdded` (mainwnd.c:2027), list-view effect: when
`RunId == 1` state highlighting is switched off, the row is inserted,
and state highlighting is switched back on; for any other run the row
is inserted under the ambient toggle. -/
def PhMainWndOnServiceAdded (runId : Nat) (id : Nat) (s : Ctx) : Ctx :=
  let s1 := if runId = 1 then SetStateHighlighting false s else s
  let s2 := newItem id true s1
  if runId = 1 then SetStateHighlighting true s2 else s2

/-- The events the highlight state machine reacts to, with the times at
which they reach the UI thread. -/
inductive HOp where
  | mkItem (id : Nat) (highlight : Bool)
  | rmItem (id : Nat)
  | tick
  | fire
  | teardown
  | setHighlighting (b : Bool)
  deriving DecidableEq

def hStep : HOp → Ctx → Ctx
  | .mkItem id hl, s => newItem id hl s
  | .rmItem id, s => Remove id s
  | .tick, s => Tick s
  | .fire, s => timerFire s
  | .teardown, s => { s with listHandleCreated := false }
  | .setHighlighting b, s => SetStateHighlighting b s

def hRun : List HOp → Ctx → Ctx
  | [], s => s
  | op :: ops, s => hRun ops (hStep op s)

/-- Run a time-stamped, time-ordered schedule up to observation time
`t`: exactly the events with timestamp `≤ t` have reached the UI
thread. -/
def runTimed (sched : List (Nat × HOp)) (t : Nat) (s : Ctx) : Ctx :=
  hRun ((sched.filter (fun e => e.1 ≤ t)).map (fun e => e.2)) s

/-- The visual state of the row with the given id, if it is displayed. -/
def itemState (s : Ctx) (id : Nat) : Option ListViewItemState :=
  (s.items.find? (fun it => it.id = id)).map (fun it => it.state)

/-- A live context with highlighting enabled, the default 1000 ms
duration, and nothing displayed or queued. -/
def initCtx : Ctx :=
  { listHandleCreated := true, stateHighlighting := true,
    highlightingDuration := 1000, items := [], queue := [],
    postQueue := [], postQueuePending := [], timersInFlight := 0,
    executed := [] }

/-- A context whose UI surface has been torn down while work was still
scheduled: the list's handle is gone, one action sits in each of the
immediate and delayed queues, and one armed timer is in flight. -/
def deadCtx : Ctx :=
  { listHandleCreated := false, stateHighlighting := true,
    highlightingDuration := 1000, items := [], queue := [.decay 1],
    postQueue := [.decay 2], postQueuePending := [], timersInFlight := 1,
    executed := [] }

/-- The canonical timed schedule for observing a creation highlight
with the default 1000 ms duration: row 1 is created (and enters the
`New`/`RecentlyAdded` state) at t = 0; provider ticks reach the UI
thread at t = 5 and t = 1200; the one-shot timer each tick arms fires
`HighlightingDuration` = 1000 ms later, at t = 1005 and t = 2200. -/
def creationSchedule : List (Nat × HOp) :=
  [(0, .mkItem 1 true), (5, .tick), (1005, .fire), (1200, .tick),
   (2200, .fire)]

/-! ### Lock-granularity micro-traces

The source guards each queue with `lock (queue) { ... }`.  To reason
about what happens inside or outside a lock region we spell the queue
operations of `Tick`, the timer callback, `Enqueue` and `EnqueuePost`
out as micro-event traces. -/

/-- The three locked queues of a `HighlightingContext`. -/
inductive QId where
  | immediateQ
  | delayedQ
  | pendingQ
  deriving DecidableEq

/-- Micro events: acquiring/releasing a queue's monitor, dequeuing or
enqueuing on it, and invoking a dequeued action. -/
inductive MicroEv where
  | lockAcq (q : QId)
  | lockRel (q : QId)
  | dequeueEv (q : QId)
  | enqueueEv (q : QId)
  | invoke (a : HAction)
  deriving DecidableEq

/-- The immediate-queue drain inside `Tick`'s UI batch
(`lock (_queue) { while (Count > 0) Dequeue().Invoke(); }`). -/
def tickDrainTrace (acts : List HAction) : List MicroEv :=
  [.lockAcq .immediateQ]
    ++ (acts.map (fun a => [MicroEv.dequeueEv .immediateQ, .invoke a])).flatten
    ++ [.lockRel .immediateQ]

/-- The delayed-queue drain inside the timer callback's UI batch
(`lock (_postQueue) { while (Count > 0) Dequeue().Invoke(); }`). -/
def postDrainTrace (acts : List HAction) : List MicroEv :=
  [.lockAcq .delayedQ]
    ++ (acts.map (fun a => [MicroEv.dequeueEv .delayedQ, .invoke a])).flatten
    ++ [.lockRel .delayedQ]

/-- `Enqueue`: `lock (_queue) _queue.Enqueue(method)`. -/
def enqueueTrace : List MicroEv :=
  [.lockAcq .immediateQ, .enqueueEv .immediateQ, .lockRel .immediateQ]

/-- `EnqueuePost`: `lock (_postQueuePending) _postQueuePending.Enqueue(method)`. -/
def enqueuePostTrace : List MicroEv :=
  [.lockAcq .pendingQ, .enqueueEv .pendingQ, .lockRel .pendingQ]

/-- `someInvokeUnderLock q depth tr` is `true` when some action in the
trace is invoked while the monitor of queue `q` is held (`depth` is the
current hold depth of `q`'s monitor). -/
def someInvokeUnderLock (q : QId) (depth : Nat) : List MicroEv → Bool
  | [] => false
  | .lockAcq q' :: r =>
    someInvokeUnderLock q (if q' = q then depth + 1 else depth) r
  | .lockRel q' :: r =>
    someInvokeUnderLock q (if q' = q then depth - 1 else depth) r
  | .invoke _ :: r => decide (0 < depth) || someInvokeUnderLock q depth r
  | _ :: r => someInvokeUnderLock q depth r

/-- `allInvokesUnderLock q depth tr` is `true` when every action in the
trace is invoked while the monitor of queue `q` is held. -/
def allInvokesUnderLock (q : QId) (depth : Nat) : List MicroEv → Bool
  | [] => true
  | .lockAcq q' :: r =>
    allInvokesUnderLock q (if q' = q then depth + 1 else depth) r
  | .lockRel q' :: r =>
    allInvokesUnderLock q (if q' = q then depth - 1 else depth) r
  | .invoke _ :: r => decide (0 < depth) && allInvokesUnderLock q depth r
  | _ :: r => allInvokesUnderLock q depth r

/-- `true` when the trace invokes no action at all. -/
def noInvoke (tr : List MicroEv) : Bool :=
  tr.all (fun e => match e with | .invoke _ => false | _ => true)

end Highlight

namespace DisplaySync

/-- A process item as delivered in an event: its identity key and a
snapshot of its display fields. -/
structure ProcessItem where
  processId : Nat
  snapshot : Nat
  deriving DecidableEq

/-- A displayed process node: identity key plus the currently displayed
fields. -/
structure ProcessNode where
  processId : Nat
  fields : Nat
  deriving DecidableEq

/-- `PhFindProcessNode`: look the displayed node up by process id. -/
def PhFindProcessNode (pid : Nat) (nodes : List ProcessNode) :
    Option ProcessNode :=
  nodes.find? (fun n => n.processId = pid)

/-- Modelled from the spec: `PhCreateProcessNode` (called by
`PhMainWndOnProcessAdded`, mainwnd.c:2007) is not under src/; per the
spec's Presentation Synchronizer contract, an `Added` whose key is
absent inserts a new Displayed Item, while a duplicate `Added` for a
key already present is treated as `Modified` (the existing node is
refreshed, no second node is inserted). -/
def PhCreateProcessNode (item : ProcessItem) (nodes : List ProcessNode) :
    List ProcessNode :=
  if nodes.any (fun n => n.processId = item.processId) then
    nodes.map (fun n =>
      if n.processId = item.processId then { n with fields := item.snapshot }
      else n)
  else
    nodes ++ [{ processId := item.processId, fields := item.snapshot }]

/-- Modelled from the spec: `PhUpdateProcessNode` (called by
`PhMainWndOnProcessModified`, mainwnd.c:2014) is not under src/; per
the spec it refreshes the node's visible fields, and updating a node
that was not found (already removed) is a benign no-op. -/
def PhUpdateProcessNode (item : ProcessItem) (found : Option ProcessNode)
    (nodes : List ProcessNode) : List ProcessNode :=
  match found with
  | none => nodes
  | some n =>
    nodes.map (fun m =>
      if m.processId = n.processId then { m with fields := item.snapshot }
      else m)

/-- Modelled from the spec: `PhRemoveProcessNode` (called by
`PhMainWndOnProcessRemoved`, mainwnd.c:2021) is not under src/; per the
spec it deletes the row for the found node, and removing a node that
was not found is a benign no-op. -/
def PhRemoveProcessNode (found : Option ProcessNode)
    (nodes : List ProcessNode) : List ProcessNode :=
  match found with
  | none => nodes
  | some n => nodes.filter (fun m => m.processId ≠ n.processId)

/-- `PhMainWndOnProcessAdded` (mainwnd.c:2003): create the node. -/
def PhMainWndOnProcessAdded (item : ProcessItem)
    (nodes : List ProcessNode) : List ProcessNode :=
  PhCreateProcessNode item nodes

/-- `PhMainWndOnProcessModified` (mainwnd.c:2010): update the node
found by `PhFindProcessNode`. -/
def PhMainWndOnProcessModified (item : ProcessItem)
    (nodes : List ProcessNode) : List ProcessNode :=
  PhUpdateProcessNode item (PhFindProcessNode item.processId nodes) nodes

/-- `PhMainWndOnProcessRemoved` (mainwnd.c:2017), display effect:
remove the node found by `PhFindProcessNode`. -/
def PhMainWndOnProcessRemoved (item : ProcessItem)
    (nodes : List ProcessNode) : List ProcessNode :=
  PhRemoveProcessNode (PhFindProcessNode item.processId nodes) nodes

/-- The drained events for the process view. -/
inductive DispEvent where
  | added (item : ProcessItem)
  | modified (item : ProcessItem)
  | removed (item : ProcessItem)
  deriving DecidableEq

def applyEvent (e : DispEvent) (nodes : List ProcessNode) :
    List ProcessNode :=
  match e with
  | .added item => PhMainWndOnProcessAdded item nodes
  | .modified item => PhMainWndOnProcessModified item nodes
  | .removed item => PhMainWndOnProcessRemoved item nodes

def applyEvents : List DispEvent → List ProcessNode → List ProcessNode
  | [], nodes => nodes
  | e :: es, nodes => applyEvents es (applyEvent e nodes)

/-- A service row in the service list view: the service item it stores
and the displayed PID column. -/
structure SvcRow where
  svcId : Nat
  pidColumn : Nat
  deriving DecidableEq

/-- `PhFindListViewItemByParam` for the service list view: index of the
row storing the given service item, or `none` (the source's `-1`). -/
def PhFindListViewItemByParam (svcId : Nat) (rows : List SvcRow) :
    Option Nat :=
  rows.findIdx? (fun r => r.svcId = svcId)

/-- Modelled from the spec: `PhSetListViewSubItem` (called by
`PhMainWndOnServiceModified`, mainwnd.c:2056) is not under src/;
setting a sub item of a found row updates that row's column, and per
the spec a `Modified` whose row was not found (index `-1`, already
removed) is a benign no-op. -/
def PhSetListViewSubItem (idx : Option Nat) (v : Nat)
    (rows : List SvcRow) : List SvcRow :=
  match idx with
  | none => rows
  | some i =>
    rows.mapIdx (fun j r => if j = i then { r with pidColumn := v } else r)

/-- `PhMainWndOnServiceModified` (mainwnd.c:2049): find the row by the
service item and set its PID column from the service's current
snapshot. -/
def PhMainWndOnServiceModified (svcId : Nat) (pidNow : Nat)
    (rows : List SvcRow) : List SvcRow :=
  PhSetListViewSubItem (PhFindListViewItemByParam svcId rows) pidNow rows

end DisplaySync

/-! ## Theorems -/

namespace RefCount

lemma rcRun_append (l1 l2 : List RcOp) (s : ObjLifecycle) :
    rcRun (l1 ++ l2) s = rcRun l2 (rcRun l1 s) := by
  induction l1 generalizing s with
  | nil => rfl
  | cons op ops ih => simp [rcRun, ih]

lemma rcAllSafe_head (l : List RcOp) (s : ObjLifecycle)
    (h : rcAllSafe l s = true) : rcSafe s = true := by
  cases l with
  | nil => exact h
  | cons op ops => exact (Bool.and_eq_true_iff.mp h).1

lemma rcAllSafe_append (l1 l2 : List RcOp) (s : ObjLifecycle) :
    rcAllSafe (l1 ++ l2) s = true ↔
      (rcAllSafe l1 s = true ∧ rcAllSafe l2 (rcRun l1 s) = true) := by
  induction l1 generalizing s with
  | nil =>
    simp only [List.nil_append, rcAllSafe, rcRun]
    exact ⟨fun h => ⟨rcAllSafe_head l2 s h, h⟩, fun h => h.2⟩
  | cons op ops ih =>
    simp only [List.cons_append, rcAllSafe, rcRun, Bool.and_eq_true_iff,
      List.append_eq, ih, and_assoc]

/-- The state of a process item after its added event has been posted
and consumed: the displayed node holds the reference taken by
`ProcessAddedHandler`. -/
lemma proc_after_add :
    rcRun [RcOp.pAddH, RcOp.consume] initialObj =
      { refCount := 2, acquires := 1, releases := 0, queue := [] } := by
  decide

lemma proc_mid_cycle (k : Nat) :
    rcRun ((List.replicate k [RcOp.pModH, RcOp.consume]).flatten)
        { refCount := 2, acquires := 1, releases := 0, queue := [] } =
      { refCount := 2, acquires := 1, releases := 0, queue := [] } ∧
    rcAllSafe ((List.replicate k [RcOp.pModH, RcOp.consume]).flatten)
        { refCount := 2, acquires := 1, releases := 0, queue := [] } = true := by
  induction k with
  | zero => decide
  | succ n ih =>
    simp only [List.replicate_succ, List.flatten_cons, List.cons_append,
      List.nil_append, rcRun, rcAllSafe, Bool.and_eq_true_iff]
    refine ⟨?_, ?_, ?_, ?_⟩
    · exact ih.1
    · decide
    · decide
    · exact ih.2

lemma svc_mid_cycle (k : Nat) :
    rcRun ((List.replicate k [RcOp.sModH, RcOp.consume]).flatten)
        { refCount := 2, acquires := 2, releases := 1, queue := [] } =
      { refCount := 2, acquires := 2, releases := 1, queue := [] } ∧
    rcAllSafe ((List.replicate k [RcOp.sModH, RcOp.consume]).flatten)
        { refCount := 2, acquires := 2, releases := 1, queue := [] } = true := by
  induction k with
  | zero => decide
  | succ n ih =>
    simp only [List.replicate_succ, List.flatten_cons, List.cons_append,
      List.nil_append, rcRun, rcAllSafe, Bool.and_eq_true_iff]
    refine ⟨?_, ?_, ?_, ?_⟩
    · exact ih.1
    · decide
    · decide
    · exact ih.2

end RefCount

/-- C1, counterexample: the claim requires the producer-side handler of
*every* event kind — Modified (`ProcessModifiedHandler`) included — to
increment the reference count before posting the event.  But starting
from an entity with reference count 1 and an empty message queue,
`ProcessModifiedHandler` posts a `WM_PH_PROCESS_MODIFIED` message while
leaving the reference count at 1 and making no acquire call at all. -/
theorem C1_counterexample :
    (RefCount.ProcessModifiedHandler RefCount.initialObj).queue =
        [RefCount.PhMsg.processModified] ∧
    (RefCount.ProcessModifiedHandler RefCount.initialObj).refCount = 1 ∧
    (RefCount.ProcessModifiedHandler RefCount.initialObj).acquires = 0 := by
  decide

/-- C1, amended: only the Added handlers (`ProcessAddedHandler`,
`ServiceAddedHandler`) increment the reference count before posting;
the Modified and Removed handlers post without incrementing, relying on
the reference taken at Added time and held until the Removed event is
consumed.  Over the full lifecycle (Added, `k` Modifieds, Removed, each
consumed in FIFO order) the number of release calls made by `mainwnd.c`
equals the number of its acquire calls (1/1 for a process item, 2/2 for
a service item), the count returns to the provider's creation
reference, and the count never drops to zero while an event referencing
the entity is unconsumed. -/
theorem C1_amended (k : Nat) :
    (RefCount.rcRun (RefCount.procLifecycle k) RefCount.initialObj =
      { refCount := 1, acquires := 1, releases := 1, queue := [] } ∧
     RefCount.rcAllSafe (RefCount.procLifecycle k) RefCount.initialObj
       = true) ∧
    (RefCount.rcRun (RefCount.svcLifecycle k) RefCount.initialObj =
      { refCount := 1, acquires := 2, releases := 2, queue := [] } ∧
     RefCount.rcAllSafe (RefCount.svcLifecycle k) RefCount.initialObj
       = true) := by
  have hA : RefCount.rcRun [RefCount.RcOp.pAddH, RefCount.RcOp.consume]
      RefCount.initialObj =
      { refCount := 2, acquires := 1, releases := 0, queue := [] } := by
    decide
  have hS : RefCount.rcRun [RefCount.RcOp.sAddH 2, RefCount.RcOp.consume]
      RefCount.initialObj =
      { refCount := 2, acquires := 2, releases := 1, queue := [] } := by
    decide
  have hp := RefCount.proc_mid_cycle k
  have hs := RefCount.svc_mid_cycle k
  constructor
  · constructor
    · unfold RefCount.procLifecycle
      rw [RefCount.rcRun_append, RefCount.rcRun_append, hA, hp.1]
      decide
    · unfold RefCount.procLifecycle
      rw [RefCount.rcAllSafe_append, RefCount.rcAllSafe_append,
        RefCount.rcRun_append, hA, hp.1]
      exact ⟨⟨by decide, hp.2⟩, by decide⟩
  · constructor
    · unfold RefCount.svcLifecycle
      rw [RefCount.rcRun_append, RefCount.rcRun_append, hS, hs.1]
      decide
    · unfold RefCount.svcLifecycle
      rw [RefCount.rcAllSafe_append, RefCount.rcAllSafe_append,
        RefCount.rcRun_append, hS, hs.1]
      exact ⟨⟨by decide, hs.2⟩, by decide⟩

/-- C2, counterexample: with highlighting enabled and duration 1000 ms,
row 1 enters `RecentlyAdded` (`New`) at t = 0; a batch tick runs at
t = 5 and the timer it arms fires at t = 1005.  The claim requires the
row to be `Normal` at every observation t ≥ 1000 ms plus one batch
tick, in particular at t = 1500; but at t = 1500 the row is still in
the `New` state, because the decay action handed to `EnqueuePost` at
creation sits in `_postQueuePending` and the first timer cycle only
*transfers* it into `_postQueue` instead of executing it. -/
theorem C2_counterexample :
    Highlight.itemState
        (Highlight.runTimed Highlight.creationSchedule 1500 Highlight.initCtx)
        1 = some Highlight.ListViewItemState.new := by
  decide

/-- C2, amended: the decay action enqueued at item creation is applied
by the *second* timer cycle after creation, not the first: with ticks
reaching the UI thread at t = 5 and t = 1200 and their one-shot timers
firing at t = 1005 and t = 2200, the row created at t = 0 is in the
`RecentlyAdded` (`New`) state at every observation 0 < t < 2200 — the
first cycle's fire at t = 1005 merely transfers the pending decay into
the delayed queue — and is `Normal` at every observation t ≥ 2200. -/
theorem C2_amended (t : Nat) (h : 0 < t) :
    (t < 2200 →
      Highlight.itemState
          (Highlight.runTimed Highlight.creationSchedule t Highlight.initCtx)
          1 = some Highlight.ListViewItemState.new) ∧
    (2200 ≤ t →
      Highlight.itemState
          (Highlight.runTimed Highlight.creationSchedule t Highlight.initCtx)
          1 = some Highlight.ListViewItemState.normal) := by
  unfold Highlight.runTimed Highlight.creationSchedule
  by_cases h5 : 5 ≤ t
  · by_cases h1005 : 1005 ≤ t
    · by_cases h1200 : 1200 ≤ t
      · by_cases h2200 : 2200 ≤ t
        · simp only [List.filter, Nat.zero_le, h5, h1005, h1200, h2200,
            decide_True, List.map]
          exact ⟨fun hlt => absurd h2200 (by omega), fun _ => by decide⟩
        · simp only [List.filter, Nat.zero_le, h5, h1005, h1200, h2200,
            decide_True, decide_False, List.map]
          exact ⟨fun _ => by decide, fun hge => hge.elim⟩
      · have h2200 : ¬ 2200 ≤ t := by omega
        simp only [List.filter, Nat.zero_le, h5, h1005, h1200, h2200,
          decide_True, decide_False, List.map]
        exact ⟨fun _ => by decide, fun hge => hge.elim⟩
    · have h1200 : ¬ 1200 ≤ t := by omega
      have h2200 : ¬ 2200 ≤ t := by omega
      simp only [List.filter, Nat.zero_le, h5, h1005, h1200, h2200,
        decide_True, decide_False, List.map]
      exact ⟨fun _ => by decide, fun hge => hge.elim⟩
  · have h1005 : ¬ 1005 ≤ t := by omega
    have h1200 : ¬ 1200 ≤ t := by omega
    have h2200 : ¬ 2200 ≤ t := by omega
    simp only [List.filter, Nat.zero_le, h5, h1005, h1200, h2200,
      decide_True, decide_False, List.map]
    exact ⟨fun _ => by decide, fun hge => hge.elim⟩

/-- C2, witness for the amended theorem at t = 2500. -/
theorem C2_amended_witness :
    Highlight.itemState
        (Highlight.runTimed Highlight.creationSchedule 2500 Highlight.initCtx)
        1 = some Highlight.ListViewItemState.normal :=
  (C2_amended 2500 (by decide)).2 (by decide)


namespace Highlight

lemma applyHAction_timers (a : HAction) (s : Ctx) :
    (applyHAction a s).timersInFlight = s.timersInFlight := by
  cases a <;> simp [applyHAction, EnqueuePost]

lemma applyHAction_live (a : HAction) (s : Ctx) :
    (applyHAction a s).listHandleCreated = s.listHandleCreated := by
  cases a <;> simp [applyHAction, EnqueuePost]

lemma applyHAction_postQueue (a : HAction) (s : Ctx) :
    (applyHAction a s).postQueue = s.postQueue := by
  cases a <;> simp [applyHAction, EnqueuePost]

lemma drainList_timers (acts : List HAction) :
    ∀ s : Ctx, (drainList acts s).timersInFlight = s.timersInFlight := by
  induction acts with
  | nil => intro s; rfl
  | cons a r ih =>
    intro s
    simp [drainList, ih, applyHAction_timers]

lemma drainList_live (acts : List HAction) :
    ∀ s : Ctx, (drainList acts s).listHandleCreated
      = s.listHandleCreated := by
  induction acts with
  | nil => intro s; rfl
  | cons a r ih =>
    intro s
    simp [drainList, ih, applyHAction_live]

lemma drainList_postQueue (acts : List HAction) :
    ∀ s : Ctx, (drainList acts s).postQueue = s.postQueue := by
  induction acts with
  | nil => intro s; rfl
  | cons a r ih =>
    intro s
    simp [drainList, ih, applyHAction_postQueue]

lemma drainList_executed (acts : List HAction) :
    ∀ s : Ctx, (drainList acts s).executed = s.executed ++ acts := by
  induction acts with
  | nil => intro s; simp [drainList]
  | cons a r ih =>
    intro s
    cases a <;> simp [drainList, applyHAction, EnqueuePost, ih]

lemma drainList_pending (acts : List HAction) :
    ∀ s : Ctx, (drainList acts s).postQueuePending
      = s.postQueuePending ++ generatedPosts acts := by
  induction acts with
  | nil => intro s; simp [drainList, generatedPosts]
  | cons a r ih =>
    intro s
    cases a <;> simp [drainList, applyHAction, EnqueuePost, generatedPosts, ih]

/-- Behaviour of one live timer fire: the batch executes exactly the
delayed queue's contents, and afterwards the delayed queue holds
exactly the pending buffer plus whatever the batch itself posted, the
pending buffer being left empty. -/
lemma timerFire_spec (s : Ctx) (h : s.listHandleCreated = true) :
    (timerFire s).executed = s.executed ++ s.postQueue ∧
    (timerFire s).postQueue =
      s.postQueuePending ++ generatedPosts s.postQueue ∧
    (timerFire s).postQueuePending = [] ∧
    (timerFire s).listHandleCreated = true := by
  simp [timerFire, h, drainList_executed, drainList_pending, drainList_live]

lemma tick_timers (s : Ctx) (h : s.listHandleCreated = true) :
    (Tick s).timersInFlight = s.timersInFlight + 1 ∧
    (Tick s).listHandleCreated = true := by
  simp [Tick, h, drainList_timers, drainList_live]

end Highlight

/-- C5, counterexample: the claim allows at most one delayed one-shot
timer in flight per highlighting context, overlapping `Tick` requests
reusing or extending the armed timer.  But each `Tick` batch constructs
a fresh `System.Threading.Timer`: after a row is created and two ticks
run before either timer fires, two timers are in flight at once. -/
theorem C5_counterexample :
    (Highlight.hRun
        [.mkItem 1 true, .tick, .tick] Highlight.initCtx).timersInFlight
      = 2 := by
  decide

/-- C5, amended: timers are not reused or extended — every live `Tick`
batch arms one additional one-shot timer, so after `n` ticks with no
intervening fire there are exactly `n` more timers in flight than
before. -/
theorem C5_amended (s : Highlight.Ctx) (n : Nat)
    (h : s.listHandleCreated = true) :
    (Highlight.hRun (List.replicate n .tick) s).timersInFlight =
      s.timersInFlight + n := by
  induction n generalizing s with
  | zero => simp [Highlight.hRun]
  | succ m ih =>
    have ht := Highlight.tick_timers s h
    simp only [List.replicate_succ, Highlight.hRun, Highlight.hStep]
    rw [ih (Highlight.Tick s) ht.2, ht.1]
    omega

/-- C5, witness for the amended theorem: three ticks from the initial
context leave three timers in flight. -/
theorem C5_amended_witness :
    (Highlight.hRun (List.replicate 3 .tick)
        Highlight.initCtx).timersInFlight = 0 + 3 :=
  C5_amended Highlight.initCtx 3 (by decide)

/-- C6: each live timer fire executes exactly the actions that were in
the delayed queue when its callback began draining — no action handed
to `EnqueuePost` during the batch runs within it.  Every action
requested during the batch is captured in the pending buffer and
transferred into the delayed queue after the batch completes (the
delayed queue afterwards holds exactly the prior pending buffer plus
the batch's own posts, in order, and the pending buffer is empty), and
the next live timer cycle then executes precisely those transferred
actions, so none is lost. -/
theorem C6 (s : Highlight.Ctx) (h : s.listHandleCreated = true) :
    (Highlight.timerFire s).executed = s.executed ++ s.postQueue ∧
    (Highlight.timerFire s).postQueue =
      s.postQueuePending ++ Highlight.generatedPosts s.postQueue ∧
    (Highlight.timerFire s).postQueuePending = [] ∧
    (Highlight.timerFire (Highlight.timerFire s)).executed =
      (s.executed ++ s.postQueue) ++
        (s.postQueuePending ++ Highlight.generatedPosts s.postQueue) := by
  have h1 := Highlight.timerFire_spec s h
  have h2 := Highlight.timerFire_spec (Highlight.timerFire s) h1.2.2.2
  refine ⟨h1.1, h1.2.1, h1.2.2.1, ?_⟩
  rw [h2.1, h1.1, h1.2.1]

/-- C6, witness: a live context whose delayed queue holds the removal
highlight for row 3 and whose pending buffer holds the decay for row 7;
the fire executes exactly the removal highlight, and the delayed queue
afterwards holds the decay followed by the removal's posted
`baseRemove`, which the second fire then executes. -/
theorem C6_witness :
    (Highlight.timerFire
        { Highlight.initCtx with
            postQueue := [.removeHighlight 3],
            postQueuePending := [.decay 7] }).executed =
      [] ++ [.removeHighlight 3] ∧
    (Highlight.timerFire
        { Highlight.initCtx with
            postQueue := [.removeHighlight 3],
            postQueuePending := [.decay 7] }).postQueue =
      [.decay 7] ++ Highlight.generatedPosts [.removeHighlight 3] ∧
    (Highlight.timerFire
        { Highlight.initCtx with
            postQueue := [.removeHighlight 3],
            postQueuePending := [.decay 7] }).postQueuePending = [] ∧
    (Highlight.timerFire (Highlight.timerFire
        { Highlight.initCtx with
            postQueue := [.removeHighlight 3],
            postQueuePending := [.decay 7] })).executed =
      ([] ++ [.removeHighlight 3]) ++
        ([.decay 7] ++ Highlight.generatedPosts [.removeHighlight 3]) :=
  C6 { Highlight.initCtx with
         postQueue := [.removeHighlight 3],
         postQueuePending := [.decay 7] } (by decide)

/-- C7: with the `StateHighlighting` toggle off, creation and removal
apply their final state immediately and bypass both the immediate and
the delayed queue: a newly created row appears directly with its normal
color in the `Normal` state and no decay action is enqueued anywhere,
and `Remove` deletes the row at once (`base.Remove()`) with no
`PendingRemoval` highlight and nothing enqueued. -/
theorem C7 (s : Highlight.Ctx) (id : Nat)
    (h : s.stateHighlighting = false) :
    ((Highlight.newItem id true s).items = s.items ++
        [{ id := id, normalColor := .window, backColor := .window,
           state := .normal }] ∧
     (Highlight.newItem id true s).queue = s.queue ∧
     (Highlight.newItem id true s).postQueue = s.postQueue ∧
     (Highlight.newItem id true s).postQueuePending =
       s.postQueuePending) ∧
    ((Highlight.Remove id s).items =
        s.items.filter (fun it => it.id ≠ id) ∧
     (Highlight.Remove id s).queue = s.queue ∧
     (Highlight.Remove id s).postQueue = s.postQueue ∧
     (Highlight.Remove id s).postQueuePending = s.postQueuePending) := by
  simp [Highlight.newItem, Highlight.Remove, h]

/-- C7, witness: creation and removal of row 4 with the toggle off,
starting from the initial context with highlighting disabled. -/
theorem C7_witness :
    ((Highlight.newItem 4 true
        { Highlight.initCtx with stateHighlighting := false }).items =
      ({ Highlight.initCtx with stateHighlighting := false }).items ++
        [{ id := 4, normalColor := .window, backColor := .window,
           state := .normal }] ∧
     (Highlight.newItem 4 true
        { Highlight.initCtx with stateHighlighting := false }).queue =
       ({ Highlight.initCtx with stateHighlighting := false }).queue ∧
     (Highlight.newItem 4 true
        { Highlight.initCtx with stateHighlighting := false }).postQueue =
       ({ Highlight.initCtx with stateHighlighting := false }).postQueue ∧
     (Highlight.newItem 4 true
        { Highlight.initCtx with
            stateHighlighting := false }).postQueuePending =
       ({ Highlight.initCtx with
            stateHighlighting := false }).postQueuePending) ∧
    ((Highlight.Remove 4
        { Highlight.initCtx with stateHighlighting := false }).items =
      ({ Highlight.initCtx with
           stateHighlighting := false }).items.filter
        (fun it => it.id ≠ 4) ∧
     (Highlight.Remove 4
        { Highlight.initCtx with stateHighlighting := false }).queue =
       ({ Highlight.initCtx with stateHighlighting := false }).queue ∧
     (Highlight.Remove 4
        { Highlight.initCtx with stateHighlighting := false }).postQueue =
       ({ Highlight.initCtx with stateHighlighting := false }).postQueue ∧
     (Highlight.Remove 4
        { Highlight.initCtx with
            stateHighlighting := false }).postQueuePending =
       ({ Highlight.initCtx with
            stateHighlighting := false }).postQueuePending) :=
  C7 { Highlight.initCtx with stateHighlighting := false } 4 (by decide)

/-- C8: once the list's window handle is gone, a scheduled batch is
silently discarded: `Tick` returns without executing anything, arming a
timer, or touching any queue or row, and a firing timer merely disposes
itself — it executes nothing and leaves rows and queues untouched.
Both operations are total functions of the context (no error is
raised). -/
theorem C8 (s : Highlight.Ctx) (h : s.listHandleCreated = false) :
    Highlight.Tick s = s ∧
    (Highlight.timerFire s).executed = s.executed ∧
    (Highlight.timerFire s).items = s.items ∧
    (Highlight.timerFire s).queue = s.queue ∧
    (Highlight.timerFire s).postQueue = s.postQueue ∧
    (Highlight.timerFire s).postQueuePending = s.postQueuePending ∧
    (Highlight.timerFire s).timersInFlight = s.timersInFlight - 1 := by
  simp [Highlight.Tick, Highlight.timerFire, h]

/-- C8, witness: a torn-down context with an action queued in each
queue and one timer in flight; the tick and the fire both discard their
batches. -/
theorem C8_witness :
    Highlight.Tick Highlight.deadCtx = Highlight.deadCtx ∧
    (Highlight.timerFire Highlight.deadCtx).executed =
      Highlight.deadCtx.executed ∧
    (Highlight.timerFire Highlight.deadCtx).items =
      Highlight.deadCtx.items ∧
    (Highlight.timerFire Highlight.deadCtx).queue =
      Highlight.deadCtx.queue ∧
    (Highlight.timerFire Highlight.deadCtx).postQueue =
      Highlight.deadCtx.postQueue ∧
    (Highlight.timerFire Highlight.deadCtx).postQueuePending =
      Highlight.deadCtx.postQueuePending ∧
    (Highlight.timerFire Highlight.deadCtx).timersInFlight =
      Highlight.deadCtx.timersInFlight - 1 :=
  C8 Highlight.deadCtx (by decide)

namespace Highlight

lemma allInvokes_drain_body (q : QId) (acts : List HAction) :
    ∀ d : Nat, 0 < d →
      allInvokesUnderLock q d
        ((acts.map (fun a => [MicroEv.dequeueEv q, MicroEv.invoke a])).flatten
          ++ [MicroEv.lockRel q]) = true := by
  induction acts with
  | nil =>
    intro d hd
    simp [allInvokesUnderLock]
  | cons a r ih =>
    intro d hd
    simp only [List.map_cons, List.flatten_cons, List.cons_append,
      List.nil_append, allInvokesUnderLock, hd, decide_True,
      Bool.true_and]
    exact ih d hd

end Highlight

/-- C9, counterexample: the claim requires each queue's lock to be held
only for the duration of an enqueue or dequeue, never while executing a
dequeued action.  But the immediate-queue drain of `Tick` runs
`Dequeue().Invoke()` *inside* `lock (_queue)`: in the micro-trace of a
drain of one decay action, an action is invoked while the immediate
queue's monitor is held. -/
theorem C9_counterexample :
    Highlight.someInvokeUnderLock .immediateQ 0
      (Highlight.tickDrainTrace [.decay 0]) = true := by
  decide

/-- C9, amended: the enqueue operations (`Enqueue`, `EnqueuePost`) hold
their queue's lock only around the enqueue itself and invoke nothing,
but the two batch drains hold the drained queue's lock for the whole
batch: every dequeued action is invoked while that queue's monitor is
held. -/
theorem C9_amended (acts : List Highlight.HAction) :
    Highlight.allInvokesUnderLock .immediateQ 0
      (Highlight.tickDrainTrace acts) = true ∧
    Highlight.allInvokesUnderLock .delayedQ 0
      (Highlight.postDrainTrace acts) = true ∧
    Highlight.noInvoke Highlight.enqueueTrace = true ∧
    Highlight.noInvoke Highlight.enqueuePostTrace = true := by
  refine ⟨?_, ?_, by decide, by decide⟩
  · unfold Highlight.tickDrainTrace
    simp only [List.cons_append, List.nil_append,
      Highlight.allInvokesUnderLock, if_pos rfl]
    exact Highlight.allInvokes_drain_body .immediateQ acts 1 (by decide)
  · unfold Highlight.postDrainTrace
    simp only [List.cons_append, List.nil_append,
      Highlight.allInvokesUnderLock, if_pos rfl]
    exact Highlight.allInvokes_drain_body .delayedQ acts 1 (by decide)

/-- C10: for a service Added event delivered with `RunId == 1` (the
service provider's first run), `PhMainWndOnServiceAdded` switches state
highlighting off, inserts the row — which therefore appears directly in
the `Normal` state, never `RecentlyAdded` — and switches highlighting
back on immediately after the insertion; for any later run the toggle
is left alone and, with highlighting enabled, the inserted row appears
in the `New` (`RecentlyAdded`) state. -/
theorem C10 (s : Highlight.Ctx) (id runId : Nat)
    (hfresh : s.items.all (fun it => it.id ≠ id) = true) :
    (Highlight.itemState (Highlight.PhMainWndOnServiceAdded 1 id s) id =
        some .normal ∧
     (Highlight.PhMainWndOnServiceAdded 1 id s).stateHighlighting =
        true) ∧
    (runId ≠ 1 →
      (Highlight.PhMainWndOnServiceAdded runId id s).stateHighlighting =
          s.stateHighlighting ∧
      (s.stateHighlighting = true →
        Highlight.itemState (Highlight.PhMainWndOnServiceAdded runId id s)
          id = some .new)) := by
  have hnone : ∀ l : List Highlight.LVItem,
      l.all (fun it => it.id ≠ id) = true →
      l.find? (fun it => it.id = id) = none := by
    intro l hl
    rw [List.find?_eq_none]
    intro x hx
    have := (List.all_eq_true.mp hl) x hx
    simpa using this
  constructor
  · constructor
    · simp [Highlight.PhMainWndOnServiceAdded, Highlight.SetStateHighlighting,
        Highlight.newItem, Highlight.itemState, List.find?_append, hnone s.items hfresh]
    · simp [Highlight.PhMainWndOnServiceAdded, Highlight.SetStateHighlighting,
        Highlight.newItem]
  · intro hrun
    constructor
    · simp [Highlight.PhMainWndOnServiceAdded, hrun, Highlight.newItem]
      split <;> rfl
    · intro hhl
      simp [Highlight.PhMainWndOnServiceAdded, hrun, Highlight.newItem, hhl,
        Highlight.EnqueuePost, Highlight.itemState, List.find?_append,
        hnone s.items hfresh]

/-- C10, witness: service row 9 inserted at run 1 and at run 2 into the
initial context (empty, highlighting enabled). -/
theorem C10_witness :
    (Highlight.itemState
        (Highlight.PhMainWndOnServiceAdded 1 9 Highlight.initCtx) 9 =
          some .normal ∧
     (Highlight.PhMainWndOnServiceAdded 1 9
        Highlight.initCtx).stateHighlighting = true) ∧
    ((2 : Nat) ≠ 1 →
      (Highlight.PhMainWndOnServiceAdded 2 9
          Highlight.initCtx).stateHighlighting =
        Highlight.initCtx.stateHighlighting ∧
      (Highlight.initCtx.stateHighlighting = true →
        Highlight.itemState
          (Highlight.PhMainWndOnServiceAdded 2 9 Highlight.initCtx) 9 =
            some .new)) :=
  C10 Highlight.initCtx 9 2 (by decide)

namespace DisplaySync

lemma create_present_keys (item : ProcessItem) (nodes : List ProcessNode)
    (h : nodes.any (fun n => n.processId = item.processId) = true) :
    (PhCreateProcessNode item nodes).map (fun n => n.processId) =
      nodes.map (fun n => n.processId) := by
  simp only [PhCreateProcessNode, h, if_true, List.map_map]
  apply List.map_congr_left
  intro n _
  by_cases hn : n.processId = item.processId <;> simp [hn]

lemma update_keys (item : ProcessItem) (found : Option ProcessNode)
    (nodes : List ProcessNode) :
    (PhUpdateProcessNode item found nodes).map (fun n => n.processId) =
      nodes.map (fun n => n.processId) := by
  cases found with
  | none => rfl
  | some n =>
    simp only [PhUpdateProcessNode, List.map_map]
    apply List.map_congr_left
    intro m _
    by_cases hm : m.processId = n.processId <;> simp [hm]

lemma applyEvent_nodup (e : DispEvent) (nodes : List ProcessNode)
    (h : (nodes.map (fun n => n.processId)).Nodup) :
    ((applyEvent e nodes).map (fun n => n.processId)).Nodup := by
  cases e with
  | added item =>
    by_cases hp : nodes.any (fun n => n.processId = item.processId) = true
    · rw [show applyEvent (.added item) nodes = PhCreateProcessNode item nodes
        from rfl, create_present_keys item nodes hp]
      exact h
    · have hp' : nodes.any (fun n => n.processId = item.processId) = false :=
        Bool.eq_false_iff.mpr hp
      have hmem : item.processId ∉ nodes.map (fun n => n.processId) := by
        intro hin
        rcases List.mem_map.mp hin with ⟨n, hn, hpid⟩
        have hany : nodes.any (fun n => n.processId = item.processId)
            = true :=
          List.any_eq_true.mpr ⟨n, hn, decide_eq_true hpid⟩
        rw [hp'] at hany
        exact Bool.false_ne_true hany
      show ((PhCreateProcessNode item nodes).map
        (fun n => n.processId)).Nodup
      simp only [PhCreateProcessNode, hp', Bool.false_eq_true, if_false,
        List.map_append, List.map_cons, List.map_nil]
      rw [List.nodup_append]
      exact ⟨h, List.nodup_singleton _, by simpa using hmem⟩
  | modified item =>
    show ((PhUpdateProcessNode item _ nodes).map
      (fun n => n.processId)).Nodup
    rw [update_keys]
    exact h
  | removed item =>
    show ((PhRemoveProcessNode
      (PhFindProcessNode item.processId nodes) nodes).map
        (fun n => n.processId)).Nodup
    cases PhFindProcessNode item.processId nodes with
    | none => exact h
    | some n =>
      exact ((List.filter_sublist nodes).map
        (fun n => n.processId)).nodup h

lemma applyEvents_nodup (events : List DispEvent) :
    ∀ nodes : List ProcessNode,
      (nodes.map (fun n => n.processId)).Nodup →
      ((applyEvents events nodes).map (fun n => n.processId)).Nodup := by
  induction events with
  | nil => intro nodes h; exact h
  | cons e es ih =>
    intro nodes h
    exact ih (applyEvent e nodes) (applyEvent_nodup e nodes h)

end DisplaySync

/-- C3: a duplicate Added — one whose identity key is already present
among the displayed process nodes — is treated as Modified:
`PhMainWndOnProcessAdded` leaves the list of displayed identity keys
exactly unchanged, inserting no second node for the key; and along any
sequence of Added/Modified/Removed events the displayed collection
keeps at most one node per identity key (the keys stay pairwise
distinct). -/
theorem C3 (item : DisplaySync.ProcessItem)
    (nodes : List DisplaySync.ProcessNode)
    (events : List DisplaySync.DispEvent)
    (hnodup : (nodes.map (fun n => n.processId)).Nodup) :
    (nodes.any (fun n => n.processId = item.processId) = true →
      (DisplaySync.PhMainWndOnProcessAdded item nodes).map
          (fun n => n.processId) =
        nodes.map (fun n => n.processId)) ∧
    ((DisplaySync.applyEvents events nodes).map
        (fun n => n.processId)).Nodup := by
  constructor
  · intro hdup
    exact DisplaySync.create_present_keys item nodes hdup
  · exact DisplaySync.applyEvents_nodup events nodes hnodup

/-- C3, witness: node 1 is displayed; a duplicate `Added` for key 1
followed by further events never yields two nodes for one key. -/
theorem C3_witness :
    (([⟨1, 0⟩] : List DisplaySync.ProcessNode).any
        (fun n => n.processId = DisplaySync.ProcessItem.processId ⟨1, 5⟩)
          = true →
      (DisplaySync.PhMainWndOnProcessAdded ⟨1, 5⟩ [⟨1, 0⟩]).map
          (fun n => n.processId) =
        ([⟨1, 0⟩] : List DisplaySync.ProcessNode).map
          (fun n => n.processId)) ∧
    ((DisplaySync.applyEvents
        [.added ⟨1, 7⟩, .modified ⟨1, 8⟩, .removed ⟨1, 8⟩] [⟨1, 0⟩]).map
        (fun n => n.processId)).Nodup :=
  C3 ⟨1, 5⟩ [⟨1, 0⟩] [.added ⟨1, 7⟩, .modified ⟨1, 8⟩, .removed ⟨1, 8⟩]
    (by decide)

/-- C4: a Modified event whose identity key has no corresponding
displayed item is a benign no-op: when `PhFindProcessNode` finds no
node, `PhMainWndOnProcessModified` returns the displayed collection
unchanged, and when `PhFindListViewItemByParam` finds no row (`-1`),
`PhMainWndOnServiceModified` returns the service rows unchanged; both
are total functions, so no error is raised. -/
theorem C4 (item : DisplaySync.ProcessItem)
    (nodes : List DisplaySync.ProcessNode)
    (svcId pidNow : Nat) (rows : List DisplaySync.SvcRow)
    (h1 : DisplaySync.PhFindProcessNode item.processId nodes = none)
    (h2 : DisplaySync.PhFindListViewItemByParam svcId rows = none) :
    DisplaySync.PhMainWndOnProcessModified item nodes = nodes ∧
    DisplaySync.PhMainWndOnServiceModified svcId pidNow rows = rows := by
  constructor
  · simp [DisplaySync.PhMainWndOnProcessModified,
      DisplaySync.PhUpdateProcessNode, h1]
  · simp [DisplaySync.PhMainWndOnServiceModified,
      DisplaySync.PhSetListViewSubItem, h2]

/-- C4, witness: a Modified for process key 3 while only node 2 is
displayed, and a service Modified for service 5 while only row 6 is
displayed, both leave the collections unchanged. -/
theorem C4_witness :
    DisplaySync.PhMainWndOnProcessModified ⟨3, 4⟩ [⟨2, 0⟩] = [⟨2, 0⟩] ∧
    DisplaySync.PhMainWndOnServiceModified 5 11 [⟨6, 0⟩] = [⟨6, 0⟩] :=
  C4 ⟨3, 4⟩ [⟨2, 0⟩] 5 11 [⟨6, 0⟩] (by decide) (by decide)
